import Mathlib

/-!
Shallow embedding of the LearningPlatform repository's progress-tracking
logic, access policies, provisioning trigger and client initialization.

Sources embedded:
- `src/src/pages/CourseDetail.tsx`: `isLessonCompleted`, `isCourseCompleted`,
  `calculateProgress`, `toggleLessonCompletion`, `markCourseCompleted`.
- the SQL migration (schema, row-level-security policies, `handle_new_user`
  trigger).
- the supabase client module (environment check and client construction).

Identifiers (uuids) are modelled as `Nat`; timestamps (ISO strings /
timestamptz) as `Nat` with the usual order; JavaScript's exact `Math.round`
on the rational value as Mathlib's `round` (both are floor(x + 1/2)).
The client's fetched state is a `List UserProgress`; the database
UPDATE ... WHERE id = r.id followed by a re-fetch is a `List.map` that
rewrites every row whose id matches, and INSERT is an append of a row
built from the inserted columns plus the schema's defaults.
-/

namespace LearningPlatform

/-- Row of the `lessons` table (interface `Lesson` in the client). -/
structure Lesson where
  id : Nat
  course_id : Nat
  title : String
  content : String
  order_number : Nat
  duration_minutes : Nat
  created_at : Nat
deriving DecidableEq

/-- Row of the `user_progress` table (interface `UserProgress` in the client).
`lesson_id` is nullable; `completed_at` is nullable. -/
structure UserProgress where
  id : Nat
  user_id : Nat
  course_id : Nat
  lesson_id : Option Nat
  completed : Bool
  completed_at : Option Nat
  created_at : Nat
  updated_at : Nat
deriving DecidableEq

/-- Row of the `profiles` table. -/
structure Profile where
  id : Nat
  email : String
  full_name : String
  created_at : Nat
  updated_at : Nat
deriving DecidableEq

/-- The relevant columns of a row of `auth.users`: its id, email and the
optional `full_name` entry of its signup metadata
(`raw_user_meta_data->>'full_name'`, null when absent). -/
structure AuthUser where
  id : Nat
  email : String
  raw_meta_full_name : Option String
deriving DecidableEq

/-- `isLessonCompleted` from CourseDetail.tsx:
`progress.some((p) => p.lesson_id === lessonId && p.completed)`. -/
def isLessonCompleted (progress : List UserProgress) (lessonId : Nat) : Bool :=
  progress.any (fun p => p.lesson_id == some lessonId && p.completed)

/-- `isCourseCompleted` from CourseDetail.tsx:
`progress.some((p) => p.lesson_id === null && p.completed)`. -/
def isCourseCompleted (progress : List UserProgress) : Bool :=
  progress.any (fun p => p.lesson_id == (none : Option Nat) && p.completed)

/-- `calculateProgress` from CourseDetail.tsx:
`if (lessons.length === 0) return 0;` then
`Math.round((completedLessons / lessons.length) * 100)` where
`completedLessons = lessons.filter((lesson) => isLessonCompleted(lesson.id)).length`. -/
def calculateProgress (lessons : List Lesson) (progress : List UserProgress) : ℤ :=
  if lessons.length = 0 then 0
  else
    round ((((lessons.filter (fun lesson => isLessonCompleted progress lesson.id)).length : ℚ)
      / (lessons.length : ℚ)) * 100)

/-- The spec's formula, stated in the spec's own order of operations:
round(100 × count(lessons with lesson-completed) / count(lessons)),
defined as 0 when the course has zero lessons. -/
def specCompletionPercentage (lessons : List Lesson) (progress : List UserProgress) : ℤ :=
  if lessons.length = 0 then 0
  else
    round ((100 * ((lessons.filter (fun lesson => isLessonCompleted progress lesson.id)).length : ℚ))
      / (lessons.length : ℚ))

/-- `toggleLessonCompletion` from CourseDetail.tsx, as the pure effect on the
fetched progress list (update-by-id then re-fetch, or insert then re-fetch).
`now` is the value of `new Date().toISOString()`; `freshId` is the `id`
the store generates for an inserted row; inserted rows take the schema
defaults `created_at = now()`, `updated_at = now()`. -/
def toggleLessonCompletion (userId courseId : Nat) (progress : List UserProgress)
    (lessonId now freshId : Nat) : List UserProgress :=
  let isCompleted := isLessonCompleted progress lessonId
  match progress.find? (fun p => p.lesson_id == some lessonId) with
  | some existingProgress =>
      progress.map (fun q =>
        if q.id = existingProgress.id then
          { q with
            completed := !isCompleted
            completed_at := if !isCompleted then some now else none
            updated_at := now }
        else q)
  | none =>
      progress ++ [{ id := freshId, user_id := userId, course_id := courseId,
                     lesson_id := some lessonId, completed := true,
                     completed_at := some now, created_at := now, updated_at := now }]

/-- `markCourseCompleted` from CourseDetail.tsx, as the pure effect on the
fetched progress list. -/
def markCourseCompleted (userId courseId : Nat) (progress : List UserProgress)
    (now freshId : Nat) : List UserProgress :=
  match progress.find? (fun p => p.lesson_id == (none : Option Nat)) with
  | some courseProgress =>
      progress.map (fun q =>
        if q.id = courseProgress.id then
          { q with
            completed := true
            completed_at := some now
            updated_at := now }
        else q)
  | none =>
      progress ++ [{ id := freshId, user_id := userId, course_id := courseId,
                     lesson_id := none, completed := true,
                     completed_at := some now, created_at := now, updated_at := now }]

/-- The first null-lesson progress row the client's
`progress.find((p) => p.lesson_id === null)` lookup would see. -/
def findCourseRecord (progress : List UserProgress) : Option UserProgress :=
  progress.find? (fun p => p.lesson_id == (none : Option Nat))

/- ### Supabase client initialization (src/lib/supabase.ts) -/

/-- The constructed client: `createClient(supabaseUrl, supabaseAnonKey)`. -/
structure SupabaseClient where
  url : String
  anonKey : String
deriving DecidableEq

/-- JavaScript falsiness of an environment value of type `string | undefined`:
`!x` is true when `x` is `undefined` or the empty string. -/
def isFalsyEnv (x : Option String) : Bool :=
  match x with
  | none => true
  | some s => s == ""

/-- The module-load logic of src/lib/supabase.ts:
`if (!supabaseUrl || !supabaseAnonKey) throw new Error('Missing Supabase environment variables');`
then `createClient(supabaseUrl, supabaseAnonKey)`. -/
def initSupabaseClient (supabaseUrl supabaseAnonKey : Option String) :
    Except String SupabaseClient :=
  if isFalsyEnv supabaseUrl || isFalsyEnv supabaseAnonKey then
    Except.error "Missing Supabase environment variables"
  else
    Except.ok { url := supabaseUrl.getD "", anonKey := supabaseAnonKey.getD "" }

/- ### Row-level security policies (SQL migration) -/

/-- The four SQL operations a policy can govern. -/
inductive SqlOp where
  | select
  | insert
  | update
  | delete
deriving DecidableEq

/-- The `user_progress` policies: SELECT USING (auth.uid() = user_id),
INSERT WITH CHECK (auth.uid() = user_id), UPDATE USING/WITH CHECK
(auth.uid() = user_id); no DELETE policy exists, and with row-level
security enabled an operation matched by no permissive policy is denied. -/
def userProgressAllows (callerUid : Nat) (op : SqlOp) (row : UserProgress) : Bool :=
  match op with
  | .select => callerUid == row.user_id
  | .insert => callerUid == row.user_id
  | .update => callerUid == row.user_id
  | .delete => false

/-- The `profiles` policies: SELECT USING (auth.uid() = id),
UPDATE USING/WITH CHECK (auth.uid() = id), INSERT WITH CHECK
(auth.uid() = id); no DELETE policy exists. -/
def profilesAllows (callerUid : Nat) (op : SqlOp) (row : Profile) : Bool :=
  match op with
  | .select => callerUid == row.id
  | .insert => callerUid == row.id
  | .update => callerUid == row.id
  | .delete => false

/-- The rows a SELECT on `user_progress` issued by `callerUid` can return:
exactly the stored rows whose SELECT policy predicate holds. -/
def selectUserProgress (callerUid : Nat) (rows : List UserProgress) : List UserProgress :=
  rows.filter (fun r => userProgressAllows callerUid .select r)

/-- The rows a SELECT on `profiles` issued by `callerUid` can return. -/
def selectProfiles (callerUid : Nat) (rows : List Profile) : List Profile :=
  rows.filter (fun r => profilesAllows callerUid .select r)

/- ### Provisioning trigger (SQL migration) -/

/-- `handle_new_user` / trigger `on_auth_user_created`: AFTER INSERT on
`auth.users`, FOR EACH ROW insert into `profiles (id, email, full_name)` the
values `(new.id, new.email, COALESCE(new.raw_user_meta_data->>'full_name', ''))`;
`created_at`/`updated_at` take the schema default `now()`. -/
def handle_new_user (newUser : AuthUser) (now : Nat) (profiles : List Profile) :
    List Profile :=
  profiles ++ [{ id := newUser.id, email := newUser.email,
                 full_name := newUser.raw_meta_full_name.getD "",
                 created_at := now, updated_at := now }]

/- ### Helper lemmas -/

theorem mem_eq_of_length_le_one {α : Type} {l : List α} (h : l.length ≤ 1)
    {a b : α} (ha : a ∈ l) (hb : b ∈ l) : a = b := by
  match l with
  | [] => cases ha
  | [x] =>
      rw [List.mem_singleton] at ha hb
      rw [ha, hb]
  | x :: y :: t => simp at h

theorem eq_singleton_of_length_le_one {α : Type} {l : List α} (h : l.length ≤ 1)
    {a : α} (ha : a ∈ l) : l = [a] := by
  match l with
  | [] => cases ha
  | [x] =>
      rw [List.mem_singleton] at ha
      rw [ha]
  | x :: y :: t => simp at h

theorem filter_map_comm {α : Type} (f : α → α) (pr : α → Bool)
    (hpres : ∀ a, pr (f a) = pr a) :
    ∀ l : List α, (l.map f).filter pr = (l.filter pr).map f := by
  intro l
  induction l with
  | nil => rfl
  | cons a t ih =>
      simp only [List.map_cons, List.filter_cons, hpres a]
      cases pr a <;> simp [ih]

theorem find_map_comm {α : Type} (f : α → α) (pr : α → Bool)
    (hpres : ∀ a, pr (f a) = pr a) :
    ∀ l : List α, (l.map f).find? pr = (l.find? pr).map f := by
  intro l
  induction l with
  | nil => rfl
  | cons a t ih =>
      simp only [List.map_cons, List.find?_cons, hpres a]
      cases pr a <;> simp [ih]

theorem any_congr_of_mem {α : Type} {p q : α → Bool} :
    ∀ {l : List α}, (∀ a ∈ l, p a = q a) → l.any p = l.any q := by
  intro l
  induction l with
  | nil => intro _; rfl
  | cons a t ih =>
      intro h
      simp only [List.any_cons, h a (List.mem_cons_self a t),
        ih fun b hb => h b (List.mem_cons_of_mem a hb)]

theorem find_pred {α : Type} {pr : α → Bool} {l : List α} {a : α}
    (h : l.find? pr = some a) : pr a = true :=
  List.find?_some h

theorem find_pred_lesson {st : List UserProgress} {L : Nat} {e : UserProgress}
    (hf : st.find? (fun p => p.lesson_id == some L) = some e) :
    (e.lesson_id == some L) = true := by
  have h2 := List.find?_some hf
  exact h2

theorem any_and_eq_filter_any {α : Type} (pr q : α → Bool) :
    ∀ l : List α, l.any (fun a => pr a && q a) = (l.filter pr).any q := by
  intro l
  induction l with
  | nil => rfl
  | cons a t ih =>
      simp only [List.any_cons, List.filter_cons]
      cases hpa : pr a
      · rw [if_neg (by decide), Bool.false_and, Bool.false_or, ih]
      · rw [if_pos rfl, List.any_cons, Bool.true_and, ih]

theorem toggle_find_some (u c : Nat) (st : List UserProgress) (L n f : Nat)
    {e : UserProgress} (hf : st.find? (fun p => p.lesson_id == some L) = some e) :
    toggleLessonCompletion u c st L n f =
      st.map (fun q =>
        if q.id = e.id then
          { q with
            completed := !(isLessonCompleted st L)
            completed_at := if !(isLessonCompleted st L) then some n else none
            updated_at := n }
        else q) := by
  simp only [toggleLessonCompletion, hf]

theorem toggle_find_none (u c : Nat) (st : List UserProgress) (L n f : Nat)
    (hf : st.find? (fun p => p.lesson_id == some L) = none) :
    toggleLessonCompletion u c st L n f =
      st ++ [{ id := f, user_id := u, course_id := c, lesson_id := some L,
               completed := true, completed_at := some n,
               created_at := n, updated_at := n }] := by
  simp only [toggleLessonCompletion, hf]

theorem isLessonCompleted_of_find {st : List UserProgress} {L : Nat} {e : UserProgress}
    (hu : (st.filter (fun p => p.lesson_id == some L)).length ≤ 1)
    (hf : st.find? (fun p => p.lesson_id == some L) = some e) :
    isLessonCompleted st L = e.completed := by
  have hm : e ∈ st := List.mem_of_find?_eq_some hf
  have hp : (e.lesson_id == some L) = true := find_pred_lesson hf
  cases hec : e.completed with
  | true =>
      apply List.any_eq_true.mpr
      exact ⟨e, hm, by simp [hp, hec]⟩
  | false =>
      cases hA : isLessonCompleted st L with
      | false => rfl
      | true =>
          exfalso
          obtain ⟨q, hq, hq2⟩ := List.any_eq_true.mp hA
          rw [Bool.and_eq_true] at hq2
          have hqe : q = e :=
            mem_eq_of_length_le_one hu
              (List.mem_filter.mpr ⟨hq, hq2.1⟩)
              (List.mem_filter.mpr ⟨hm, hp⟩)
          rw [hqe, hec] at hq2
          exact Bool.false_ne_true hq2.2

theorem filter_eq_singleton_of_find {st : List UserProgress} {L : Nat} {e : UserProgress}
    (hu : (st.filter (fun p => p.lesson_id == some L)).length ≤ 1)
    (hf : st.find? (fun p => p.lesson_id == some L) = some e) :
    st.filter (fun p => p.lesson_id == some L) = [e] :=
  eq_singleton_of_length_le_one hu
    (List.mem_filter.mpr ⟨List.mem_of_find?_eq_some hf, find_pred_lesson hf⟩)

theorem isLessonCompleted_eq_filter (st : List UserProgress) (L : Nat) :
    isLessonCompleted st L =
      (st.filter (fun p => p.lesson_id == some L)).any (fun p => p.completed) := by
  unfold isLessonCompleted
  exact any_and_eq_filter_any _ _ st

theorem isLessonCompleted_map_of_unique {st : List UserProgress} {L : Nat} {e : UserProgress}
    (hu : (st.filter (fun p => p.lesson_id == some L)).length ≤ 1)
    (hf : st.find? (fun p => p.lesson_id == some L) = some e)
    {f : UserProgress → UserProgress}
    (hpres : ∀ a, (f a).lesson_id = a.lesson_id) :
    isLessonCompleted (st.map f) L = (f e).completed := by
  rw [isLessonCompleted_eq_filter,
    filter_map_comm f (fun p => p.lesson_id == some L)
      (fun a => by
        show ((f a).lesson_id == some L) = (a.lesson_id == some L)
        rw [hpres]) st,
    filter_eq_singleton_of_find hu hf]
  simp

theorem isLessonCompleted_toggle (u c : Nat) (st : List UserProgress) (L n fid : Nat)
    (hu : (st.filter (fun p => p.lesson_id == some L)).length ≤ 1) :
    isLessonCompleted (toggleLessonCompletion u c st L n fid) L =
      !(isLessonCompleted st L) := by
  cases hf : st.find? (fun p => p.lesson_id == some L) with
  | some e =>
      rw [toggle_find_some u c st L n fid hf, isLessonCompleted_map_of_unique hu hf]
      · simp
      · intro a
        by_cases h2 : a.id = e.id <;> simp [h2]
  | none =>
      have hnone := List.find?_eq_none.mp hf
      have h0 : isLessonCompleted st L = false := by
        rw [isLessonCompleted, List.any_eq_false]
        intro p hp
        simp [hnone p hp]
      have h0' : st.any (fun p => p.lesson_id == some L && p.completed) = false := h0
      rw [toggle_find_none u c st L n fid hf, h0, isLessonCompleted, List.any_append, h0']
      simp

theorem toggle_filter_le_one (u c : Nat) (st : List UserProgress) (L n fid : Nat)
    (hu : (st.filter (fun p => p.lesson_id == some L)).length ≤ 1) :
    ((toggleLessonCompletion u c st L n fid).filter
      (fun p => p.lesson_id == some L)).length ≤ 1 := by
  cases hf : st.find? (fun p => p.lesson_id == some L) with
  | some e =>
      rw [toggle_find_some u c st L n fid hf, filter_map_comm]
      · rw [List.length_map]
        exact hu
      · intro a
        by_cases h2 : a.id = e.id <;> simp [h2]
  | none =>
      have h0 : st.filter (fun p => p.lesson_id == some L) = [] := by
        rw [List.filter_eq_nil_iff]
        intro a ha
        simp [List.find?_eq_none.mp hf a ha]
      rw [toggle_find_none u c st L n fid hf, List.filter_append, h0]
      simp

theorem toggle_clears_completed_at (u c : Nat) (st : List UserProgress) (L n fid : Nat)
    (hu : (st.filter (fun p => p.lesson_id == some L)).length ≤ 1)
    (hc : isLessonCompleted st L = true) :
    ∀ p ∈ toggleLessonCompletion u c st L n fid,
      p.lesson_id = some L → p.completed_at = none := by
  cases hf : st.find? (fun p => p.lesson_id == some L) with
  | none =>
      exfalso
      obtain ⟨q, hq, hq2⟩ := List.any_eq_true.mp hc
      rw [Bool.and_eq_true] at hq2
      exact (List.find?_eq_none.mp hf q hq) hq2.1
  | some e =>
      rw [toggle_find_some u c st L n fid hf, hc]
      intro p hp hpl
      obtain ⟨q, hq, rfl⟩ := List.mem_map.mp hp
      by_cases h2 : q.id = e.id
      · rw [if_pos h2]
        simp
      · rw [if_neg h2] at hpl ⊢
        have hqe : q = e :=
          mem_eq_of_length_le_one hu
            (List.mem_filter.mpr ⟨hq, by simp [hpl]⟩)
            (List.mem_filter.mpr ⟨List.mem_of_find?_eq_some hf, find_pred_lesson hf⟩)
        exact absurd (by rw [hqe]) h2

/- ### Claim theorems -/

/-- C1: for every course and every fetched set of lessons and progress
records, the derived completion percentage equals
round(100 × count(lessons with lesson-completed) / count(lessons)), and it
equals 0 whenever the course has zero lessons. -/
theorem calculateProgress_eq_spec (lessons : List Lesson) (progress : List UserProgress) :
    calculateProgress lessons progress = specCompletionPercentage lessons progress ∧
    (lessons.length = 0 → calculateProgress lessons progress = 0) := by
  constructor
  · unfold calculateProgress specCompletionPercentage
    by_cases h : lessons.length = 0
    · simp [h]
    · simp only [h, if_false]
      congr 1
      ring
  · intro h
    unfold calculateProgress
    simp [h]

/-- C2: the derived lesson-completed flag is true iff some progress record
matches the lesson and is completed, and the derived course-completed flag is
true iff some progress record has a null lesson reference and is completed. -/
theorem derived_flags_iff (progress : List UserProgress) (lessonId : Nat) :
    (isLessonCompleted progress lessonId = true ↔
      ∃ p ∈ progress, p.lesson_id = some lessonId ∧ p.completed = true) ∧
    (isCourseCompleted progress = true ↔
      ∃ p ∈ progress, p.lesson_id = none ∧ p.completed = true) := by
  constructor
  · simp [isLessonCompleted, List.any_eq_true, Bool.and_eq_true, beq_iff_eq]
  · simp [isCourseCompleted, List.any_eq_true, Bool.and_eq_true, beq_iff_eq]

/-- C10: for every fetched lessons set and every progress set, duplicates
included, the derived completion percentage lies between 0 and 100, because
completed lessons are counted by filtering the lesson list. -/
theorem calculateProgress_bounds (lessons : List Lesson) (progress : List UserProgress) :
    0 ≤ calculateProgress lessons progress ∧ calculateProgress lessons progress ≤ 100 := by
  unfold calculateProgress
  by_cases h : lessons.length = 0
  · simp [h]
  · simp only [h, if_false]
    have hn : 0 < (lessons.length : ℚ) := by
      have := Nat.pos_of_ne_zero h
      exact_mod_cast this
    have hc : ((lessons.filter (fun lesson => isLessonCompleted progress lesson.id)).length : ℚ)
        ≤ (lessons.length : ℚ) := by
      exact_mod_cast List.length_filter_le _ lessons
    have hc0 : 0 ≤ ((lessons.filter (fun lesson => isLessonCompleted progress lesson.id)).length : ℚ) := by
      positivity
    set c : ℚ := ((lessons.filter (fun lesson => isLessonCompleted progress lesson.id)).length : ℚ)
    have hq0 : 0 ≤ c / (lessons.length : ℚ) * 100 := by positivity
    have hq1 : c / (lessons.length : ℚ) * 100 ≤ 100 := by
      have hdiv : c / (lessons.length : ℚ) ≤ 1 := (div_le_one hn).mpr hc
      nlinarith
    rw [round_eq]
    constructor
    · apply Int.le_floor.mpr
      push_cast
      linarith
    · have h2 : ⌊c / (lessons.length : ℚ) * 100 + 1 / 2⌋ ≤ ⌊(100 : ℚ) + 1 / 2⌋ :=
        Int.floor_le_floor (by linarith)
      have h3 : ⌊(100 : ℚ) + 1 / 2⌋ = 100 := by
        rw [Int.floor_eq_iff]
        norm_num
      rw [h3] at h2
      exact h2

/-- C3: with at most one existing progress record for the lesson, the
toggle-lesson operation flips an existing record's completed flag, sets its
completion timestamp to "now" when flipping to true and to null otherwise,
and refreshes its updated timestamp; when no record exists it inserts a new
record with completed = true and completion timestamp = "now" (there is no
create-as-incomplete path). -/
theorem toggleLessonCompletion_spec (u c : Nat) (st : List UserProgress) (L n fid : Nat)
    (hu : (st.filter (fun p => p.lesson_id == some L)).length ≤ 1) :
    (∀ e, st.find? (fun p => p.lesson_id == some L) = some e →
      toggleLessonCompletion u c st L n fid =
        st.map (fun q =>
          if q.id = e.id then
            { q with
              completed := !e.completed
              completed_at := if !e.completed then some n else none
              updated_at := n }
          else q)) ∧
    (st.find? (fun p => p.lesson_id == some L) = none →
      toggleLessonCompletion u c st L n fid =
        st ++ [{ id := fid, user_id := u, course_id := c, lesson_id := some L,
                 completed := true, completed_at := some n,
                 created_at := n, updated_at := n }]) := by
  constructor
  · intro e hf
    rw [toggle_find_some u c st L n fid hf, isLessonCompleted_of_find hu hf]
  · intro hf
    exact toggle_find_none u c st L n fid hf

/-- Witness for C3: toggling the single completed record for lesson 3 flips
it to incomplete, clears its completion timestamp and refreshes updated_at. -/
theorem toggleLessonCompletion_spec_witness :
    toggleLessonCompletion 1 2
        [{ id := 0, user_id := 1, course_id := 2, lesson_id := some 3,
           completed := true, completed_at := some 10, created_at := 5, updated_at := 5 }]
        3 20 100 =
      [{ id := 0, user_id := 1, course_id := 2, lesson_id := some 3,
         completed := false, completed_at := none, created_at := 5, updated_at := 20 }] := by
  have h := (toggleLessonCompletion_spec 1 2
      [{ id := 0, user_id := 1, course_id := 2, lesson_id := some 3,
         completed := true, completed_at := some 10, created_at := 5, updated_at := 5 }]
      3 20 100 (by decide)).1
      { id := 0, user_id := 1, course_id := 2, lesson_id := some 3,
        completed := true, completed_at := some 10, created_at := 5, updated_at := 5 }
      (by decide)
  rw [h]
  rfl

/-- C4 counterexample: starting from a single already-completed record for
lesson 3 (so the at-most-one-record precondition holds), toggling twice does
return the lesson-completed flag to its original value, but the record's
completion timestamp ends at the second toggle's "now", not null — so the
claimed conjunction fails at this input. -/
theorem toggle_twice_counterexample :
    ¬ (isLessonCompleted
          (toggleLessonCompletion 1 2
            (toggleLessonCompletion 1 2
              [{ id := 0, user_id := 1, course_id := 2, lesson_id := some 3,
                 completed := true, completed_at := some 10, created_at := 5, updated_at := 5 }]
              3 20 100)
            3 30 101) 3 =
        isLessonCompleted
          [{ id := 0, user_id := 1, course_id := 2, lesson_id := some 3,
             completed := true, completed_at := some 10, created_at := 5, updated_at := 5 }] 3 ∧
       ∀ p ∈ toggleLessonCompletion 1 2
            (toggleLessonCompletion 1 2
              [{ id := 0, user_id := 1, course_id := 2, lesson_id := some 3,
                 completed := true, completed_at := some 10, created_at := 5, updated_at := 5 }]
              3 20 100)
            3 30 101,
         p.lesson_id = some 3 → p.completed_at = none) := by
  decide

/-- C4 (amended): for every lesson and starting progress state with at most
one record for that (account, course, lesson) tuple, toggling twice returns
the derived lesson-completed flag to its original value; and when the lesson
was not completed initially, the matching record's completion timestamp is
left cleared (null). -/
theorem toggle_twice_amended (u c : Nat) (st : List UserProgress) (L n1 f1 n2 f2 : Nat)
    (hu : (st.filter (fun p => p.lesson_id == some L)).length ≤ 1) :
    isLessonCompleted
        (toggleLessonCompletion u c (toggleLessonCompletion u c st L n1 f1) L n2 f2) L =
      isLessonCompleted st L ∧
    (isLessonCompleted st L = false →
      ∀ p ∈ toggleLessonCompletion u c (toggleLessonCompletion u c st L n1 f1) L n2 f2,
        p.lesson_id = some L → p.completed_at = none) := by
  have hu1 := toggle_filter_le_one u c st L n1 f1 hu
  constructor
  · rw [isLessonCompleted_toggle u c _ L n2 f2 hu1,
      isLessonCompleted_toggle u c st L n1 f1 hu, Bool.not_not]
  · intro hfalse
    apply toggle_clears_completed_at u c _ L n2 f2 hu1
    rw [isLessonCompleted_toggle u c st L n1 f1 hu, hfalse]
    rfl

/-- Witness for the amended C4, from the empty progress state. -/
theorem toggle_twice_amended_witness :
    isLessonCompleted
        (toggleLessonCompletion 1 2 (toggleLessonCompletion 1 2 [] 3 20 100) 3 30 101) 3 =
      isLessonCompleted ([] : List UserProgress) 3 :=
  (toggle_twice_amended 1 2 [] 3 20 100 30 101 (by decide)).1

theorem find_pred_course {st : List UserProgress} {e : UserProgress}
    (hf : st.find? (fun p => p.lesson_id == (none : Option Nat)) = some e) :
    e.lesson_id = none := by
  have h2 := List.find?_some hf
  simpa using h2

theorem find_append_of_none {α : Type} (pr : α → Bool) {l1 : List α}
    (h : l1.find? pr = none) (l2 : List α) :
    (l1 ++ l2).find? pr = l2.find? pr := by
  induction l1 with
  | nil => rfl
  | cons a t ih =>
      cases hpa : pr a
      · simp only [List.cons_append, List.find?_cons, hpa] at h ⊢
        exact ih h
      · simp only [List.find?_cons, hpa] at h
        cases h

theorem any_map_comp {α : Type} (f : α → α) (p : α → Bool) :
    ∀ l : List α, (l.map f).any p = l.any (fun a => p (f a)) := by
  intro l
  induction l with
  | nil => rfl
  | cons a t ih => simp only [List.map_cons, List.any_cons, ih]

theorem mark_find_some (u c : Nat) (st : List UserProgress) (n fid : Nat)
    {e : UserProgress}
    (hf : st.find? (fun p => p.lesson_id == (none : Option Nat)) = some e) :
    markCourseCompleted u c st n fid =
      st.map (fun q =>
        if q.id = e.id then
          { q with completed := true, completed_at := some n, updated_at := n }
        else q) := by
  simp only [markCourseCompleted, hf]

theorem mark_find_none (u c : Nat) (st : List UserProgress) (n fid : Nat)
    (hf : st.find? (fun p => p.lesson_id == (none : Option Nat)) = none) :
    markCourseCompleted u c st n fid =
      st ++ [{ id := fid, user_id := u, course_id := c, lesson_id := none,
               completed := true, completed_at := some n,
               created_at := n, updated_at := n }] := by
  simp only [markCourseCompleted, hf]

theorem isCourseCompleted_mark (u c : Nat) (st : List UserProgress) (n fid : Nat) :
    isCourseCompleted (markCourseCompleted u c st n fid) = true := by
  cases hf : st.find? (fun p => p.lesson_id == (none : Option Nat)) with
  | some e =>
      rw [mark_find_some u c st n fid hf, isCourseCompleted]
      apply List.any_eq_true.mpr
      exact ⟨_, List.mem_map_of_mem _ (List.mem_of_find?_eq_some hf),
        by simp [find_pred_course hf]⟩
  | none =>
      rw [mark_find_none u c st n fid hf, isCourseCompleted, List.any_append]
      simp

theorem findCourseRecord_mark (u c : Nat) (st : List UserProgress) (n fid : Nat) :
    ∃ r, findCourseRecord (markCourseCompleted u c st n fid) = some r ∧
      r.lesson_id = none ∧ r.completed = true ∧ r.completed_at = some n := by
  cases hf : st.find? (fun p => p.lesson_id == (none : Option Nat)) with
  | some e =>
      rw [mark_find_some u c st n fid hf, findCourseRecord, find_map_comm]
      · rw [hf]
        refine ⟨_, rfl, ?_, ?_, ?_⟩
        · simp [find_pred_course hf]
        · simp
        · simp
      · intro a
        by_cases h2 : a.id = e.id <;> simp [h2]
  | none =>
      rw [mark_find_none u c st n fid hf, findCourseRecord, find_append_of_none _ hf]
      exact ⟨_, rfl, rfl, rfl, rfl⟩

theorem isCourseCompleted_toggle (u c : Nat) (st : List UserProgress) (L n fid : Nat)
    (hnd : (st.map (fun p => p.id)).Nodup) :
    isCourseCompleted (toggleLessonCompletion u c st L n fid) = isCourseCompleted st := by
  cases hf : st.find? (fun p => p.lesson_id == some L) with
  | some e =>
      rw [toggle_find_some u c st L n fid hf, isCourseCompleted, isCourseCompleted,
        any_map_comp]
      apply any_congr_of_mem
      intro q hq
      by_cases h2 : q.id = e.id
      · have hqe : q = e :=
          List.inj_on_of_nodup_map hnd hq (List.mem_of_find?_eq_some hf) h2
        subst hqe
        have hL : q.lesson_id = some L := by
          have h3 := List.find?_some hf
          simpa using h3
        simp [hL]
      · simp [h2]
  | none =>
      rw [toggle_find_none u c st L n fid hf, isCourseCompleted, isCourseCompleted,
        List.any_append]
      simp

/-- C5: mark-course-complete updates the caller's null-lesson record to
completed with completion timestamp "now" when present, inserts such a record
when absent, is idempotent (after a second call the flag is still true and,
under a monotone clock, the second completion timestamp is ≥ the first),
and never un-marks. -/
theorem markCourseCompleted_idempotent (u c : Nat) (st : List UserProgress)
    (n1 f1 n2 f2 : Nat) (h : n1 ≤ n2) :
    (∀ e, st.find? (fun p => p.lesson_id == (none : Option Nat)) = some e →
      markCourseCompleted u c st n1 f1 =
        st.map (fun q =>
          if q.id = e.id then
            { q with completed := true, completed_at := some n1, updated_at := n1 }
          else q)) ∧
    (st.find? (fun p => p.lesson_id == (none : Option Nat)) = none →
      markCourseCompleted u c st n1 f1 =
        st ++ [{ id := f1, user_id := u, course_id := c, lesson_id := none,
                 completed := true, completed_at := some n1,
                 created_at := n1, updated_at := n1 }]) ∧
    isCourseCompleted (markCourseCompleted u c st n1 f1) = true ∧
    isCourseCompleted
        (markCourseCompleted u c (markCourseCompleted u c st n1 f1) n2 f2) = true ∧
    ∃ r1 r2,
      findCourseRecord (markCourseCompleted u c st n1 f1) = some r1 ∧
      findCourseRecord
          (markCourseCompleted u c (markCourseCompleted u c st n1 f1) n2 f2) = some r2 ∧
      r1.completed = true ∧ r2.completed = true ∧
      r1.completed_at = some n1 ∧ r2.completed_at = some n2 ∧
      ∀ t1 t2, r1.completed_at = some t1 → r2.completed_at = some t2 → t1 ≤ t2 := by
  refine ⟨fun e hf => mark_find_some u c st n1 f1 hf,
          fun hf => mark_find_none u c st n1 f1 hf,
          isCourseCompleted_mark u c st n1 f1,
          isCourseCompleted_mark u c _ n2 f2, ?_⟩
  obtain ⟨r1, hr1, hl1, hc1, ha1⟩ := findCourseRecord_mark u c st n1 f1
  obtain ⟨r2, hr2, hl2, hc2, ha2⟩ :=
    findCourseRecord_mark u c (markCourseCompleted u c st n1 f1) n2 f2
  refine ⟨r1, r2, hr1, hr2, hc1, hc2, ha1, ha2, ?_⟩
  intro t1 t2 ht1 ht2
  rw [ha1, Option.some.injEq] at ht1
  rw [ha2, Option.some.injEq] at ht2
  subst ht1
  subst ht2
  exact h

/-- Witness for C5: marking the empty progress state complete sets the
course-completed flag. -/
theorem markCourseCompleted_idempotent_witness :
    isCourseCompleted (markCourseCompleted 1 2 [] 10 7) = true :=
  (markCourseCompleted_idempotent 1 2 [] 10 7 20 8 (by decide)).2.2.1

/-- C6: the course-completed signal and the lesson-completion signals are
independent: with pairwise-distinct record ids, toggling any lesson leaves
the derived course-completed flag unchanged, and after mark-course-complete
the flag stays true even when lessons are subsequently toggled. -/
theorem course_lesson_signals_independent (u c : Nat) (st : List UserProgress)
    (L n fid nm fm L2 n2 fid2 : Nat)
    (h1 : (st.map (fun p => p.id)).Nodup)
    (h2 : ((markCourseCompleted u c st nm fm).map (fun p => p.id)).Nodup) :
    isCourseCompleted (toggleLessonCompletion u c st L n fid) = isCourseCompleted st ∧
    isCourseCompleted
        (toggleLessonCompletion u c (markCourseCompleted u c st nm fm) L2 n2 fid2) =
      true := by
  constructor
  · exact isCourseCompleted_toggle u c st L n fid h1
  · rw [isCourseCompleted_toggle u c _ L2 n2 fid2 h2]
    exact isCourseCompleted_mark u c st nm fm

/-- Witness for C6 on a one-record state: toggling lesson 3 leaves the
course flag unchanged, and after marking the course it stays true. -/
theorem course_lesson_signals_independent_witness :
    isCourseCompleted
        (toggleLessonCompletion 1 2
          [{ id := 0, user_id := 1, course_id := 2, lesson_id := some 3,
             completed := true, completed_at := some 10, created_at := 5, updated_at := 5 }]
          3 20 100) =
      isCourseCompleted
        [{ id := 0, user_id := 1, course_id := 2, lesson_id := some 3,
           completed := true, completed_at := some 10, created_at := 5, updated_at := 5 }] ∧
    isCourseCompleted
        (toggleLessonCompletion 1 2
          (markCourseCompleted 1 2
            [{ id := 0, user_id := 1, course_id := 2, lesson_id := some 3,
               completed := true, completed_at := some 10, created_at := 5, updated_at := 5 }]
            30 101)
          3 40 102) = true :=
  course_lesson_signals_independent 1 2
    [{ id := 0, user_id := 1, course_id := 2, lesson_id := some 3,
       completed := true, completed_at := some 10, created_at := 5, updated_at := 5 }]
    3 20 100 30 101 3 40 102 (by decide) (by decide)

/-- C7 counterexample: with both environment settings present but the URL set
to the empty string, module load still raises the configuration error (the
code tests JavaScript falsiness, not mere presence), contradicting "if both
are present, startup proceeds". -/
theorem initSupabaseClient_counterexample :
    initSupabaseClient (some "") (some "anon-key") =
      Except.error "Missing Supabase environment variables" := by
  rfl

/-- C7 (amended): if either required setting is absent or the empty string,
module load fails with the configuration error before any client is
constructed; if both are present and non-empty, startup proceeds and the
client is built from exactly those two values. -/
theorem initSupabaseClient_amended (supabaseUrl supabaseAnonKey : Option String) :
    ((supabaseUrl = none ∨ supabaseUrl = some "" ∨
        supabaseAnonKey = none ∨ supabaseAnonKey = some "") →
      initSupabaseClient supabaseUrl supabaseAnonKey =
        Except.error "Missing Supabase environment variables") ∧
    (∀ u k, supabaseUrl = some u → supabaseAnonKey = some k → u ≠ "" → k ≠ "" →
      initSupabaseClient supabaseUrl supabaseAnonKey =
        Except.ok { url := u, anonKey := k }) := by
  constructor
  · intro hcase
    rcases hcase with h | h | h | h <;>
      subst h <;>
      simp [initSupabaseClient, isFalsyEnv]
  · intro u k hu hk hu0 hk0
    subst hu
    subst hk
    simp [initSupabaseClient, isFalsyEnv, hu0, hk0, Option.getD]

/-- Witness for the amended C7: a missing URL fails; two non-empty settings
produce a client. -/
theorem initSupabaseClient_amended_witness :
    initSupabaseClient none (some "k") =
        Except.error "Missing Supabase environment variables" ∧
    initSupabaseClient (some "u") (some "k") =
        Except.ok { url := "u", anonKey := "k" } :=
  ⟨(initSupabaseClient_amended none (some "k")).1 (Or.inl rfl),
   (initSupabaseClient_amended (some "u") (some "k")).2 "u" "k" rfl rfl
     (by decide) (by decide)⟩

/-- C8: for distinct authenticated accounts, a SELECT on user_progress or
profiles issued by one account never returns a row owned by the other, and
no policy permits DELETE on user_progress. -/
theorem rls_owner_isolation (a b : Nat) (hab : a ≠ b)
    (progressRows : List UserProgress) (profileRows : List Profile) :
    (∀ r ∈ selectUserProgress a progressRows, r.user_id ≠ b) ∧
    (∀ r ∈ selectProfiles a profileRows, r.id ≠ b) ∧
    (∀ r : UserProgress, userProgressAllows a SqlOp.delete r = false) := by
  refine ⟨?_, ?_, fun r => rfl⟩
  · intro r hr
    have h2 := (List.mem_filter.mp hr).2
    have h3 : a = r.user_id := by simpa [userProgressAllows] using h2
    rw [← h3]
    exact hab
  · intro r hr
    have h2 := (List.mem_filter.mp hr).2
    have h3 : a = r.id := by simpa [profilesAllows] using h2
    rw [← h3]
    exact hab

/-- Witness for C8: caller 1 (≠ 2) cannot DELETE any user_progress row. -/
theorem rls_owner_isolation_witness :
    userProgressAllows 1 SqlOp.delete
        { id := 0, user_id := 1, course_id := 2, lesson_id := none,
          completed := true, completed_at := some 1, created_at := 0, updated_at := 0 } =
      false :=
  (rls_owner_isolation 1 2 (by decide) [] []).2.2
    { id := 0, user_id := 1, course_id := 2, lesson_id := none,
      completed := true, completed_at := some 1, created_at := 0, updated_at := 0 }

/-- C9: the provisioning trigger appends exactly one profile row whose id
equals the new identity's id, whose email is copied from the identity, and
whose display name comes from the optional signup metadata, defaulting to
the empty string when absent. -/
theorem handle_new_user_spec (newUser : AuthUser) (now : Nat) (profiles : List Profile) :
    (handle_new_user newUser now profiles).length = profiles.length + 1 ∧
    ∃ p : Profile, handle_new_user newUser now profiles = profiles ++ [p] ∧
      p.id = newUser.id ∧ p.email = newUser.email ∧
      p.full_name = (match newUser.raw_meta_full_name with
                     | some fullName => fullName
                     | none => "") := by
  constructor
  · simp [handle_new_user]
  · refine ⟨_, rfl, rfl, rfl, ?_⟩
    cases h : newUser.raw_meta_full_name <;> simp [handle_new_user, Option.getD, h]

end LearningPlatform
